import Mathlib

/-!
The Tree router (`src/server/routes/trees.js`)

A shallow embedding of the six route handlers of the Tree resource and of the
storage calls they make.

* A handler is a function from the store (and the request) to an `Outcome`: the
  store it leaves behind and the trace of what it did, in order: storage calls,
  responses written with `res.json`, error objects handed to `next`.
* The storage layer (`../db/models`, the ORM and the database) is not part of the
  sources. It is modelled from the specification as two tables, `Trees` and
  `InsectTrees`, held as lists in storage order.
* The JavaScript and SQL conversions the handlers rely on (`Number(..)` on a path
  segment, the text of a value inside a template literal, which may raise, the
  comparison of the `id` column with a text operand, the exception a query raises
  on a text operand it cannot hold, the message of a `TypeError`) depend on
  floating point and on the engine. They are the fields of a `Platform`, and the
  theorems hold for every platform.
* Numbers are rationals, so `NaN` and the infinities are separate constructors of
  `JsNum`. Request bodies carry `name`, `location`, `height` and `size` at the
  column types of `Trees` (each may be missing); the body `id` is any JSON value
  or `undefined`.
* The `createdAt` / `updatedAt` columns are clock readings and are left out.
-/

namespace TreeRoutes

/-! ## JavaScript values -/

/-- A JavaScript number. -/
inductive JsNum
  | nan
  | posInf
  | negInf
  | finite (q : ℚ)
  deriving DecidableEq

/-- A JavaScript value as it can appear under `req.body.id`: `undefined` when the
property is missing, or a parsed JSON value. An object is kept by the names of its
own properties, which is all that its conversion to a string depends on. -/
inductive JsVal
  | undefined
  | null
  | bool (b : Bool)
  | num (n : JsNum)
  | str (s : String)
  | array (items : List JsVal)
  | object (keys : List String)

/-- The operator `===` between two values that are not one and the same object:
equal types and equal values, `NaN` equals nothing, and an array or object equals
nothing. -/
def strictEq : JsVal → JsVal → Bool
  | .undefined, .undefined => true
  | .null, .null => true
  | .bool a, .bool b => decide (a = b)
  | .num a, .num b => decide (a ≠ .nan) && decide (a = b)
  | .str a, .str b => decide (a = b)
  | _, _ => false

/-- An exception: `errors` is the list of validation messages (`err.errors`, already
mapped to their `message`), missing on an ordinary `Error`. -/
structure JsError where
  errors : Option (List String)
  message : String
  deriving DecidableEq

/-- The conversions the handlers take from the JavaScript engine and from the
database engine. -/
structure Platform where
  /-- The call `Number(s)` on a string. -/
  toNumber : String → JsNum
  /-- The conversion of a value interpolated into a template literal: its text, or
  the `TypeError` the conversion raises. -/
  toText : JsVal → Except JsError String
  /-- The integer a text operand stands for when it is compared with the integer
  column `id`; `none` when it stands for no integer. -/
  sqlInteger : String → Option Nat
  /-- The exception a query raises when this text is one of its operands; `none`
  when the query completes. -/
  queryError : String → Option JsError
  /-- The message of the `TypeError` raised by reading property `prop` of `null`. -/
  nullReadMessage : String → String
  /-- A text that `Number` reads as a number can stand in a query. -/
  queryError_of_number : ∀ s, toNumber s ≠ .nan → queryError s = none
  /-- A text that stands for an integer of the `id` column can stand in a query. -/
  queryError_of_integer : ∀ s n, sqlInteger s = some n → queryError s = none

/-- The expression `err.errors ? err.errors.map((item) => item.message).join(", ")
: err.message` shared by every `catch` block. -/
def errorDetails (err : JsError) : String :=
  match err.errors with
  | some messages => ", ".intercalate messages
  | none => err.message

/-- The exception built by `new Error(message)`. -/
def newError (message : String) : JsError :=
  { errors := none, message := message }

/-! ## The store -/

/-- A row of `Trees`. -/
structure TreeRow where
  id : Nat
  tree : String
  location : String
  heightFt : ℚ
  groundCircumferenceFt : ℚ
  deriving DecidableEq

/-- A row of the join table `InsectTrees`
(`migrations/20230826030720-create-insect-tree.js`). -/
structure InsectTreeRow where
  id : Nat
  insectId : Nat
  treeId : Nat
  deriving DecidableEq

/-- The two tables the Tree routes can touch, each in storage order, and the largest
id ever given to a row of `Trees`. -/
structure Store where
  trees : List TreeRow
  insectTrees : List InsectTreeRow
  treeSequence : Nat
  deriving DecidableEq

/-- A row cut down to `attributes: ["heightFt", "tree", "id"]`. -/
structure TreeEntry where
  heightFt : ℚ
  tree : String
  id : Nat
  deriving DecidableEq

/-- The projection of a row on `heightFt`, `tree`, `id`. -/
def TreeEntry.ofRow (r : TreeRow) : TreeEntry :=
  { heightFt := r.heightFt, tree := r.tree, id := r.id }

/-- The values handed to `Tree.create`. -/
structure NewTree where
  tree : Option String
  location : Option String
  heightFt : Option ℚ
  groundCircumferenceFt : Option ℚ
  deriving DecidableEq

/-! ## Requests, responses and traces -/

/-- The body of a `POST /` or `PUT /:id` request. -/
structure TreeBody where
  id : JsVal
  name : Option String
  location : Option String
  height : Option ℚ
  size : Option ℚ

/-- A JSON payload written by a handler. -/
inductive Payload
  | entries (l : List TreeEntry)
  | tree (t : TreeRow)
  | status (status message : String) (data : Option TreeRow)
  | failure (status message details : String)
  deriving DecidableEq

/-- A response written with `res.json`, with its status code. -/
structure Response where
  code : Nat
  body : Payload
  deriving DecidableEq

/-- The object handed to `next`. -/
structure ErrorObject where
  status : String
  message : String
  details : String
  deriving DecidableEq

/-- The storage calls of the router. -/
inductive StorageCall
  | findAll
  | findOne
  | create
  | save
  | destroy
  deriving DecidableEq

/-- One step of a handler that is visible from outside. -/
inductive Event
  | storage (call : StorageCall)
  | send (res : Response)
  | next (err : ErrorObject)
  deriving DecidableEq

/-- What a handler leaves behind: the store and the trace of its steps. -/
structure Outcome where
  store : Store
  events : List Event
  deriving DecidableEq

/-- The responses a handler wrote, in order. -/
def Outcome.responses (o : Outcome) : List Response :=
  o.events.filterMap fun e =>
    match e with
    | .send res => some res
    | _ => none

/-- The error objects a handler handed to `next`, in order. -/
def Outcome.forwarded (o : Outcome) : List ErrorObject :=
  o.events.filterMap fun e =>
    match e with
    | .next err => some err
    | _ => none

/-- A terminal action: a response written or an error forwarded. -/
def Event.isTerminal : Event → Bool
  | .storage _ => false
  | .send _ => true
  | .next _ => true

/-- The number of terminal actions in a trace. -/
def Outcome.terminalCount (o : Outcome) : Nat :=
  (o.events.filter Event.isTerminal).length

/-! ## The storage layer -/

/-- Modelled from the spec: the `LIKE` operator of the storage layer (the database
engine is not in the sources), on the characters of the pattern and of the text:
`%` stands for any run of characters, `_` for any one character, and any other
character for itself up to the case of ASCII letters. -/
def like : List Char → List Char → Bool
  | [], text => text.isEmpty
  | p :: pattern, text =>
    if p = '%' then
      text.tails.any fun rest => like pattern rest
    else
      match text with
      | [] => false
      | c :: rest => (p = '_' || p.toLower = c.toLower) && like pattern rest

/-- Insertion of a row into a list ordered by `heightFt` descending, in front of the
first row that is not taller. -/
def insertDesc (a : TreeRow) : List TreeRow → List TreeRow
  | [] => [a]
  | b :: rest => if a.heightFt ≥ b.heightFt then a :: b :: rest else b :: insertDesc a rest

/-- Modelled from the spec: the clause `order: [["heightFt", "DESC"]]` of the storage
layer (not in the sources): tallest first, rows of equal height in storage order. -/
def orderByHeightDesc : List TreeRow → List TreeRow
  | [] => []
  | a :: rest => insertDesc a (orderByHeightDesc rest)

/-- Modelled from the spec: the call `Tree.findAll` of the storage layer (not in the
sources) with `attributes: ["heightFt", "tree", "id"]`, `order: [["heightFt",
"DESC"]]` and, when `pattern` is given, `where: { tree: { [Op.like]: pattern } }`.
The call raises when the pattern cannot stand in a query. -/
def Tree.findAll (P : Platform) (db : Store) (pattern : Option String) :
    Except JsError (List TreeEntry) :=
  match pattern with
  | none => .ok ((orderByHeightDesc db.trees).map TreeEntry.ofRow)
  | some p =>
    match P.queryError p with
    | some err => .error err
    | none =>
      .ok ((orderByHeightDesc
        (db.trees.filter fun r => like p.toList r.tree.toList)).map TreeEntry.ofRow)

/-- Modelled from the spec: the call `Tree.findOne` of the storage layer (not in the
sources) with `where: { id: { [Op.eq]: id } }`: the first row whose `id` is
the integer the text operand stands for. The call raises when the operand cannot
stand in a query. -/
def Tree.findOne (P : Platform) (db : Store) (id : String) : Except JsError (Option TreeRow) :=
  match P.queryError id with
  | some err => .error err
  | none => .ok (db.trees.find? fun r => P.sqlInteger id = some r.id)

/-- Modelled from the spec: the id the storage layer assigns to a new row of `Trees`:
one more than the largest id in the table or ever given before, so that the id of
a deleted row is not given again. -/
def nextId (db : Store) : Nat :=
  max ((db.trees.map (·.id)).foldr max 0) db.treeSequence + 1

/-- Modelled from the spec: the validation of the storage layer on `Tree.create`,
one message for each required column that is missing. -/
def validate (v : NewTree) : List String :=
  (if v.tree.isNone then ["Tree.tree cannot be null"] else []) ++
  (if v.location.isNone then ["Tree.location cannot be null"] else []) ++
  (if v.heightFt.isNone then ["Tree.heightFt cannot be null"] else []) ++
  (if v.groundCircumferenceFt.isNone then ["Tree.groundCircumferenceFt cannot be null"] else [])

/-- Modelled from the spec: the call `Tree.create` of the storage layer (not in the
sources): a row with all four columns is appended under a new id, and a missing
column raises a validation exception. -/
def Tree.create (db : Store) (v : NewTree) : Except JsError (Store × TreeRow) :=
  match v.tree, v.location, v.heightFt, v.groundCircumferenceFt with
  | some tree, some location, some heightFt, some groundCircumferenceFt =>
    let row : TreeRow :=
      { id := nextId db, tree := tree, location := location, heightFt := heightFt,
        groundCircumferenceFt := groundCircumferenceFt }
    .ok ({ db with trees := db.trees ++ [row], treeSequence := nextId db }, row)
  | _, _, _, _ => .error { errors := some (validate v), message := "Validation error" }

/-- Modelled from the spec: the call `destroy()` on a row (storage layer, not in the
sources): the row leaves `Trees`, and the join rows that reference it leave
`InsectTrees` (`treeId` is declared `onDelete: 'cascade'` in the migration). -/
def destroy (db : Store) (t : TreeRow) : Except JsError Store :=
  .ok { db with
        trees := db.trees.filter fun r => r.id ≠ t.id
        insectTrees := db.insectTrees.filter fun j => j.treeId ≠ t.id }

/-- Modelled from the spec: the call `save()` on a row (storage layer, not in the
sources): the columns of the row with this id are overwritten. -/
def save (db : Store) (t : TreeRow) : Except JsError Store :=
  .ok { db with trees := db.trees.map fun r => if r.id = t.id then t else r }

/-! ## The handlers -/

/-- The expression `value || fallback` on a string column: a missing or empty value
is falsy. -/
def orString (value : Option String) (fallback : String) : String :=
  match value with
  | some s => if s = "" then fallback else s
  | none => fallback

/-- The expression `value || fallback` on a number column: a missing or zero value
is falsy. -/
def orNumber (value : Option ℚ) (fallback : ℚ) : ℚ :=
  match value with
  | some q => if q = 0 then fallback else q
  | none => fallback

/-- The handler `router.get("/", ..)`. It has no `catch`: an exception of the storage call
would end it without a terminal action. -/
def getTrees (P : Platform) (db : Store) : Outcome :=
  match Tree.findAll P db none with
  | .ok trees => ⟨db, [.storage .findAll, .send ⟨200, .entries trees⟩]⟩
  | .error _ => ⟨db, [.storage .findAll]⟩

/-- The handler `router.get("/:id", ..)`. -/
def getTreeById (P : Platform) (db : Store) (id : String) : Outcome :=
  match Tree.findOne P db id with
  | .ok (some tree) => ⟨db, [.storage .findOne, .send ⟨200, .tree tree⟩]⟩
  | .ok none =>
    ⟨db, [.storage .findOne,
          .next ⟨"not-found", "Could not find tree " ++ id, "Tree not found"⟩]⟩
  | .error err =>
    ⟨db, [.storage .findOne,
          .next ⟨"error", "Could not find tree " ++ id, errorDetails err⟩]⟩

/-- The handler `router.post("/", ..)`. -/
def postTree (db : Store) (body : TreeBody) : Outcome :=
  match Tree.create db
      { tree := body.name, location := body.location, heightFt := body.height,
        groundCircumferenceFt := body.size } with
  | .ok (db', newTree) =>
    ⟨db', [.storage .create,
           .send ⟨200, .status "success" "Successfully created new tree" (some newTree)⟩]⟩
  | .error err =>
    ⟨db, [.storage .create,
          .next ⟨"error", "Could not create new tree", errorDetails err⟩]⟩

/-- The `catch` block of `router.delete("/:id", ..)`, after the steps `done`. -/
def deleteCatch (db : Store) (id : String) (done : List Event) (err : JsError) : Outcome :=
  ⟨db, done ++ [.next ⟨"not-found", "Could not remove tree " ++ id, errorDetails err⟩]⟩

/-- The handler `router.delete("/:id", ..)`. -/
def deleteTree (P : Platform) (db : Store) (id : String) : Outcome :=
  match Tree.findOne P db id with
  | .error err => deleteCatch db id [.storage .findOne] err
  | .ok none => deleteCatch db id [.storage .findOne] (newError "Tree not found")
  | .ok (some deleteTree) =>
    match destroy db deleteTree with
    | .error err => deleteCatch db id [.storage .findOne, .storage .destroy] err
    | .ok db' =>
      ⟨db', [.storage .findOne, .storage .destroy,
             .send ⟨200, .status "success" ("Successfully removed tree " ++ id) none⟩]⟩

/-- The `catch` block of `router.put("/:id", ..)`, after the steps `done`. -/
def putCatch (db : Store) (done : List Event) (err : JsError) : Outcome :=
  ⟨db, done ++ [.next ⟨"error", "Could not update tree", errorDetails err⟩]⟩

/-- The call `editTree.set({ .. })` with the four `||` expressions. -/
def set (editTree : TreeRow) (body : TreeBody) : TreeRow :=
  { editTree with
    tree := orString body.name editTree.tree
    location := orString body.location editTree.location
    heightFt := orNumber body.height editTree.heightFt
    groundCircumferenceFt := orNumber body.size editTree.groundCircumferenceFt }

/-- The handler `router.put("/:id", ..)`. On a mismatch the template literal is
evaluated first, and a `TypeError` of its conversion reaches the `catch` block in
place of the `Error` that was to be thrown. When no row is found the handler
writes the 400 response and goes on to `editTree.set` with `editTree` being
`null`, which raises a `TypeError` that the `catch` block forwards. -/
def putTree (P : Platform) (db : Store) (id : String) (body : TreeBody) : Outcome :=
  if strictEq (.num (P.toNumber id)) body.id = false then
    match P.toText body.id with
    | .error err => putCatch db [] err
    | .ok text => putCatch db [] (newError (id ++ " does not match " ++ text))
  else
    match Tree.findOne P db id with
    | .error err => putCatch db [.storage .findOne] err
    | .ok none =>
      putCatch db
        [.storage .findOne,
         .send ⟨400, .failure "not-found" ("Could not update tree " ++ id) "Tree not found"⟩]
        (newError (P.nullReadMessage "set"))
    | .ok (some editTree) =>
      let edited := set editTree body
      match save db edited with
      | .error err => putCatch db [.storage .findOne, .storage .save] err
      | .ok db' =>
        ⟨db', [.storage .findOne, .storage .save,
               .send ⟨200, .status "success" "Successfully updated tree" (some edited)⟩]⟩

/-- The handler `router.get("/search/:value", ..)`. It has no `catch`: an exception of
the storage call ends it without a terminal action. -/
def searchTrees (P : Platform) (db : Store) (value : String) : Outcome :=
  match Tree.findAll P db (some ("%" ++ value ++ "%")) with
  | .ok trees => ⟨db, [.storage .findAll, .send ⟨200, .entries trees⟩]⟩
  | .error _ => ⟨db, [.storage .findAll]⟩

/-! ## What the specification says a search returns -/

/-- The words of the specification for a search: the name contains the value as a
substring, up to the case of ASCII letters. -/
def containsIgnoreCase (value text : String) : Bool :=
  (text.toList.map Char.toLower).tails.any fun rest =>
    (value.toList.map Char.toLower).isPrefixOf rest

/-! ## A platform and a store to evaluate on -/

/-- The value of a run of decimal digits, read from the left with `acc` so far. -/
def decimalValue : List Char → Nat → Option Nat
  | [], acc => some acc
  | c :: rest, acc =>
    if c.isDigit then decimalValue rest (10 * acc + (c.toNat - 48)) else none

/-- The integer written by a plain decimal numeral. -/
def readDecimal (s : String) : Option Nat :=
  match s.toList with
  | [] => none
  | c :: rest => decimalValue (c :: rest) 0

/-- The decimal digits of a number below `10 ^ fuel`, most significant first. -/
def decimalDigits : Nat → Nat → List Char
  | 0, _ => []
  | fuel + 1, n =>
    (if n < 10 then [] else decimalDigits fuel (n / 10)) ++ [Char.ofNat (48 + n % 10)]

/-- The text of a number in a template literal, for the integers below `10 ^ 21`
(other numbers are not evaluated on and get the text of `NaN`). -/
def numberText : JsNum → String
  | .finite q =>
    if q.den = 1 then
      (if q.num < 0 then "-" else "") ++ String.mk (decimalDigits 21 q.num.natAbs)
    else "NaN"
  | .posInf => "Infinity"
  | .negInf => "-Infinity"
  | .nan => "NaN"

/-- The conversion of a parsed JSON object to a string: `[object Object]`, unless
the object has an own property `toString`, which is then not a function, and
neither is anything `valueOf` can return a primitive from. -/
def objectText (keys : List String) : Except JsError String :=
  if "toString" ∈ keys then .error (newError "Cannot convert object to primitive value")
  else .ok "[object Object]"

/-- The conversion of an array to a string: the texts of its items joined by commas,
`null` and `undefined` giving the empty text. -/
def joinTexts : List JsVal → Except JsError String
  | [] => .ok ""
  | item :: rest =>
    match (match item with
      | .undefined => Except.ok ""
      | .null => .ok ""
      | .bool b => .ok (if b then "true" else "false")
      | .num n => .ok (numberText n)
      | .str s => .ok s
      | .array items => joinTexts items
      | .object keys => objectText keys) with
    | .error err => .error err
    | .ok first =>
      match rest with
      | [] => .ok first
      | next :: more =>
        match joinTexts (next :: more) with
        | .error err => .error err
        | .ok others => .ok (first ++ "," ++ others)

/-- The text operand as SQLite reads it when it holds a NUL character: up to the
first one. -/
def beforeNul : List Char → Option (List Char)
  | [] => none
  | c :: rest =>
    if c = Char.ofNat 0 then some []
    else (beforeNul rest).map fun read => c :: read

/-- A platform to evaluate on. It agrees with Node and with SQLite on the path
segments and body ids of the examples below: plain decimal numerals of integers
below `2 ^ 53`, arrays and objects, and a NUL character, which ends the text of a
query inside a string literal. -/
def decimalPlatform : Platform where
  toNumber s :=
    match readDecimal s with
    | some n => .finite n
    | none => .nan
  toText v :=
    match v with
    | .undefined => .ok "undefined"
    | .null => .ok "null"
    | .bool b => .ok (if b then "true" else "false")
    | .num n => .ok (numberText n)
    | .str s => .ok s
    | .array items => joinTexts items
    | .object keys => objectText keys
  sqlInteger s := readDecimal s
  queryError s :=
    match readDecimal s with
    | some _ => none
    | none =>
      match beforeNul s.toList with
      | some read =>
        some (newError ("SQLITE_ERROR: unrecognized token: \"\x27" ++
          String.mk (read.flatMap fun c => if c = Char.ofNat 39 then [c, c] else [c]) ++ "\""))
      | none => none
  nullReadMessage prop := "Cannot read properties of null (reading \x27" ++ prop ++ "\x27)"
  queryError_of_number s h := by
    cases hr : readDecimal s with
    | none => simp [hr] at h
    | some n => simp [hr]
  queryError_of_integer s n h := by
    simp [h]

/-- A store in the shape of the seeded database: five trees, and the join rows of the
seeder `20230826032110-starter-insect-tree.js`. -/
def sampleStore : Store where
  trees :=
    [ ⟨1, "General Sherman", "Sequoia National Park", 275, 103⟩,
      ⟨2, "General Grant", "Kings Canyon National Park", 268, 107⟩,
      ⟨3, "President", "Sequoia National Park", 241, 93⟩,
      ⟨4, "Lincoln", "Sequoia National Park", 256, 98⟩,
      ⟨5, "Stagg", "Private Land", 243, 109⟩ ]
  insectTrees :=
    [ ⟨1, 1, 1⟩, ⟨2, 1, 2⟩, ⟨3, 1, 4⟩, ⟨4, 1, 5⟩, ⟨5, 2, 5⟩ ]
  treeSequence := 5

/-- The body of the test "handles request body ids and request params ids that do
not match" (`test/phase-04-spec.js`), sent to `/trees/2`. -/
def mismatchBody : TreeBody :=
  { id := .num (.finite 3), name := some "mismatch-edit", location := some "mismatch-edit",
    height := some 135, size := some 72 }

/-- The body of the test "cannot update a tree that does not exist"
(`test/phase-04-spec.js`), sent to `/trees/17`. -/
def absentBody : TreeBody :=
  { id := .num (.finite 17), name := some "Invalid-edit", location := some "My backyard-edit",
    height := some 100, size := some 25 }

/-- The body of the test "update a valid tree by id" (`test/phase-04-spec.js`), sent
to `/trees/3`. -/
def editBody : TreeBody :=
  { id := .num (.finite 3), name := some "President-edit",
    location := some "Sequoia National Park-edit", height := some 240.91, size := some 93.1 }

/-- A body in the shape of `editBody` whose `height` is 0. -/
def zeroHeightBody : TreeBody :=
  { id := .num (.finite 3), name := some "President-edit", location := none,
    height := some 0, size := none }

/-- A body whose `id` is the JSON object with the one property `toString`, sent to
`/trees/2`. -/
def objectIdBody : TreeBody :=
  { id := .object ["toString"], name := some "mismatch-edit", location := none,
    height := none, size := none }

/-- The path segment of `GET /trees/%00` after decoding: one NUL character. -/
def nulPath : String :=
  String.mk [Char.ofNat 0]

/-- The third row of `sampleStore`. -/
def president : TreeRow :=
  ⟨3, "President", "Sequoia National Park", 241, 93⟩

/-- A body for `POST /` with all four properties. -/
def newTreeBody : TreeBody :=
  { id := .undefined, name := some "Boole", location := some "Converse Basin",
    height := some 269, size := some 113 }

/-- The fifth row of `sampleStore`. -/
def stagg : TreeRow :=
  ⟨5, "Stagg", "Private Land", 243, 109⟩

/-! ## Lemmas on the storage layer -/

theorem insertDesc_perm (a : TreeRow) (l : List TreeRow) : (insertDesc a l).Perm (a :: l) := by
  induction l with
  | nil => exact List.Perm.refl _
  | cons b rest ih =>
    unfold insertDesc
    split
    · exact List.Perm.refl _
    · exact (List.Perm.cons b ih).trans (List.Perm.swap a b rest)

theorem orderByHeightDesc_perm (l : List TreeRow) : (orderByHeightDesc l).Perm l := by
  induction l with
  | nil => exact List.Perm.refl _
  | cons a rest ih =>
    unfold orderByHeightDesc
    exact (insertDesc_perm a _).trans (List.Perm.cons a ih)

theorem insertDesc_sorted (a : TreeRow) (l : List TreeRow)
    (hl : l.Pairwise fun x y => x.heightFt ≥ y.heightFt) :
    (insertDesc a l).Pairwise fun x y => x.heightFt ≥ y.heightFt := by
  induction l with
  | nil => simp [insertDesc]
  | cons b rest ih =>
    rw [List.pairwise_cons] at hl
    unfold insertDesc
    split
    · rename_i hab
      refine List.pairwise_cons.mpr ⟨?_, List.pairwise_cons.mpr hl⟩
      intro x hx
      rcases List.mem_cons.mp hx with rfl | hx
      · exact hab
      · exact le_trans (hl.1 x hx) hab
    · rename_i hab
      refine List.pairwise_cons.mpr ⟨?_, ih hl.2⟩
      intro x hx
      rcases List.mem_cons.mp ((insertDesc_perm a rest).mem_iff.mp hx) with rfl | hx
      · exact le_of_lt (lt_of_not_ge hab)
      · exact hl.1 x hx

theorem orderByHeightDesc_sorted (l : List TreeRow) :
    (orderByHeightDesc l).Pairwise fun x y => x.heightFt ≥ y.heightFt := by
  induction l with
  | nil => simp [orderByHeightDesc]
  | cons a rest ih =>
    unfold orderByHeightDesc
    exact insertDesc_sorted a _ ih

theorem insertDesc_filter_height (h : ℚ) (a : TreeRow) (l : List TreeRow) :
    (insertDesc a l).filter (fun r => decide (r.heightFt = h)) =
      (a :: l).filter (fun r => decide (r.heightFt = h)) := by
  induction l with
  | nil => rfl
  | cons b rest ih =>
    unfold insertDesc
    split
    · rfl
    · rename_i hab
      rw [List.filter_cons, ih]
      by_cases hb : b.heightFt = h
      · have ha : a.heightFt ≠ h := by
          intro ha
          exact hab (by rw [ha, hb])
        simp [List.filter_cons, hb, ha]
      · simp [List.filter_cons, hb]

theorem orderByHeightDesc_filter_height (h : ℚ) (l : List TreeRow) :
    (orderByHeightDesc l).filter (fun r => decide (r.heightFt = h)) =
      l.filter (fun r => decide (r.heightFt = h)) := by
  induction l with
  | nil => rfl
  | cons a rest ih =>
    unfold orderByHeightDesc
    rw [insertDesc_filter_height, List.filter_cons, List.filter_cons, ih]

theorem find_absent (k : Option Nat) (l : List TreeRow) (h : ∀ r ∈ l, k ≠ some r.id) :
    l.find? (fun r => decide (k = some r.id)) = none := by
  rw [List.find?_eq_none]
  intro r hr
  simpa using h r hr

theorem find_unique (k : Option Nat) (r : TreeRow) (l : List TreeRow) (hr : r ∈ l)
    (hk : k = some r.id) (huniq : ∀ x ∈ l, x.id = r.id → x = r) :
    l.find? (fun x => decide (k = some x.id)) = some r := by
  induction l with
  | nil => cases hr
  | cons x rest ih =>
    by_cases hx : x.id = r.id
    · have hxr : x = r := huniq x (List.mem_cons_self x rest) hx
      subst hxr
      simp [List.find?_cons, hk]
    · have hmem : r ∈ rest := by
        rcases List.mem_cons.mp hr with h | h
        · exact absurd (congrArg TreeRow.id h).symm hx
        · exact h
      have hne : ¬ r.id = x.id := fun h => hx h.symm
      have ih' := ih hmem fun y hy => huniq y (List.mem_cons_of_mem x hy)
      simpa [List.find?_cons, hk, hne] using ih'

theorem find_replaced (k : Option Nat) (r r' : TreeRow) (l : List TreeRow) (hr : r ∈ l)
    (hk : k = some r.id) (hid : r'.id = r.id) :
    (l.map fun x => if x.id = r.id then r' else x).find? (fun x => decide (k = some x.id)) =
      some r' := by
  induction l with
  | nil => cases hr
  | cons x rest ih =>
    by_cases hx : x.id = r.id
    · simp [List.find?_cons, hk, hx, hid]
    · have hmem : r ∈ rest := by
        rcases List.mem_cons.mp hr with h | h
        · exact absurd (congrArg TreeRow.id h).symm hx
        · exact h
      have hne : ¬ r.id = x.id := fun h => hx h.symm
      have ih' := ih hmem
      simpa [List.find?_cons, hk, hx, hne] using ih'

theorem find_some_id (k : Option Nat) (r : TreeRow) (l : List TreeRow) (hr : r ∈ l)
    (hk : k = some r.id) :
    ∃ x, l.find? (fun x => decide (k = some x.id)) = some x ∧ x.id = r.id := by
  cases hf : l.find? (fun x => decide (k = some x.id)) with
  | none =>
    rw [List.find?_eq_none] at hf
    exact absurd (by simpa using hk) (hf r hr)
  | some x =>
    refine ⟨x, rfl, ?_⟩
    have hx := List.find?_some hf
    rw [hk] at hx
    have hx' : r.id = x.id := by simpa using hx
    exact hx'.symm

theorem id_le_foldr_max (l : List TreeRow) :
    ∀ r ∈ l, r.id ≤ (l.map (·.id)).foldr max 0 := by
  induction l with
  | nil => intro r hr; cases hr
  | cons x rest ih =>
    intro r hr
    rcases List.mem_cons.mp hr with rfl | h
    · exact le_max_left _ _
    · exact le_trans (ih r h) (le_max_right _ _)

theorem nextId_fresh (db : Store) : ∀ r ∈ db.trees, r.id ≠ nextId db := by
  intro r hr h
  have hle := id_le_foldr_max db.trees r hr
  have hmax : (db.trees.map (·.id)).foldr max 0 ≤
      max ((db.trees.map (·.id)).foldr max 0) db.treeSequence := le_max_left _ _
  unfold nextId at h
  omega

theorem findOne_completes (P : Platform) (db : Store) (id : String)
    (h : P.queryError id = none) :
    Tree.findOne P db id =
      .ok (db.trees.find? fun r => decide (P.sqlInteger id = some r.id)) := by
  simp [Tree.findOne, h]

theorem toNumber_ne_nan (n : JsNum) (v : JsVal) (h : strictEq (.num n) v = true) :
    n ≠ .nan := by
  cases v <;> simp [strictEq] at h
  exact h.1

theorem findOne_of_number (P : Platform) (db : Store) (id : String) (v : JsVal)
    (h : strictEq (.num (P.toNumber id)) v = true) :
    Tree.findOne P db id =
      .ok (db.trees.find? fun r => decide (P.sqlInteger id = some r.id)) :=
  findOne_completes P db id (P.queryError_of_number id (toNumber_ne_nan _ v h))

theorem findOne_of_integer (P : Platform) (db : Store) (id : String) (n : Nat)
    (h : P.sqlInteger id = some n) :
    Tree.findOne P db id =
      .ok (db.trees.find? fun r => decide (P.sqlInteger id = some r.id)) :=
  findOne_completes P db id (P.queryError_of_integer id n h)

theorem forall₂_ofRow (l : List TreeRow) :
    List.Forall₂ (fun (e : TreeEntry) (r : TreeRow) =>
      e.heightFt = r.heightFt ∧ e.tree = r.tree ∧ e.id = r.id) (l.map TreeEntry.ofRow) l := by
  induction l with
  | nil => exact List.Forall₂.nil
  | cons a rest ih => exact List.Forall₂.cons ⟨rfl, rfl, rfl⟩ ih

theorem find_appended (k : Option Nat) (row : TreeRow) (l : List TreeRow)
    (hk : k = some row.id) (hfresh : ∀ r ∈ l, r.id ≠ row.id) :
    (l ++ [row]).find? (fun x => decide (k = some x.id)) = some row := by
  have hnone : l.find? (fun x => decide (k = some x.id)) = none := by
    apply find_absent
    intro r hr h
    rw [hk] at h
    exact hfresh r hr (Option.some.inj h).symm
  rw [List.find?_append, hnone]
  simp [List.find?_cons, hk]

theorem tails_map_lower (t : List Char) :
    (t.map Char.toLower).tails = t.tails.map (List.map Char.toLower) := by
  induction t with
  | nil => rfl
  | cons c rest ih => simp [List.tails, ih]

theorem any_tails_like_nil (t : List Char) : (t.tails.any fun rest => like [] rest) = true := by
  induction t with
  | nil => rfl
  | cons c rest ih =>
    rw [List.tails, List.any_cons, ih]
    simp

theorem like_literal (v : List Char) (hp : '%' ∉ v) (hu : '_' ∉ v) (t : List Char) :
    like (v ++ ['%']) t = (v.map Char.toLower).isPrefixOf (t.map Char.toLower) := by
  induction v generalizing t with
  | nil =>
    have h := any_tails_like_nil t
    simp [like] at h
    simp [like, h]
  | cons c rest ih =>
    have hc : c ≠ '%' := fun h => hp (h ▸ List.mem_cons_self c rest)
    have hc' : c ≠ '_' := fun h => hu (h ▸ List.mem_cons_self c rest)
    have hp' : '%' ∉ rest := fun h => hp (List.mem_cons_of_mem c h)
    have hu' : '_' ∉ rest := fun h => hu (List.mem_cons_of_mem c h)
    cases t with
    | nil => simp [like, hc, List.isPrefixOf]
    | cons d more =>
      simp only [like, hc, hc', List.isPrefixOf, ih hp' hu' more, beq_eq_decide, if_false,
        List.cons_append, List.map_cons, decide_False, Bool.false_or]
      congr
      exact ih hp' hu' more

theorem like_contains (value text : String) (hp : '%' ∉ value.toList)
    (hu : '_' ∉ value.toList) :
    like ("%" ++ value ++ "%").toList text.toList = containsIgnoreCase value text := by
  have hpattern : ("%" ++ value ++ "%").toList = '%' :: (value.toList ++ ['%']) := by
    simp [String.toList]
  rw [hpattern, containsIgnoreCase, tails_map_lower, List.any_map]
  simp only [like, if_true]
  congr 1
  funext rest
  exact like_literal value.toList hp hu rest

theorem terminalCount_one (P : Platform) (db : Store) (id : String) (body : TreeBody) :
    (getTrees P db).terminalCount = 1 ∧ (getTreeById P db id).terminalCount = 1 ∧
      (postTree db body).terminalCount = 1 ∧ (deleteTree P db id).terminalCount = 1 := by
  refine ⟨rfl, ?_, ?_, ?_⟩
  · unfold getTreeById Tree.findOne
    cases P.queryError id
    · cases db.trees.find? (fun r => decide (P.sqlInteger id = some r.id)) <;> rfl
    · rfl
  · unfold postTree
    cases Tree.create db
      { tree := body.name, location := body.location, heightFt := body.height,
        groundCircumferenceFt := body.size } <;> rfl
  · unfold deleteTree Tree.findOne
    cases P.queryError id
    · cases db.trees.find? (fun r => decide (P.sqlInteger id = some r.id)) <;> rfl
    · rfl

theorem searchTrees_terminalCount (P : Platform) (db : Store) (value : String) :
    (searchTrees P db value).terminalCount =
      if P.queryError ("%" ++ value ++ "%") = none then 1 else 0 := by
  unfold searchTrees Tree.findAll
  cases h : P.queryError ("%" ++ value ++ "%") <;>
    simp [h, Outcome.terminalCount, Event.isTerminal]

theorem putTree_terminalCount (P : Platform) (db : Store) (id : String) (body : TreeBody) :
    (putTree P db id body).terminalCount =
      if strictEq (.num (P.toNumber id)) body.id = true ∧
          db.trees.find? (fun r => decide (P.sqlInteger id = some r.id)) = none
      then 2 else 1 := by
  cases hid : strictEq (.num (P.toNumber id)) body.id
  · unfold putTree
    cases P.toText body.id <;> simp [hid, putCatch, Outcome.terminalCount, Event.isTerminal]
  · unfold putTree
    rw [findOne_of_number P db id body.id hid]
    cases hfind : db.trees.find? (fun r => decide (P.sqlInteger id = some r.id))
    · simp [hid, putCatch, Outcome.terminalCount, Event.isTerminal]
    · simp [hid, save, Outcome.terminalCount, Event.isTerminal]

/-! ## The claims -/

/-- C5: `GET /` answers 200 with one entry per row of `Trees`: the entries stand
for the rows of `Trees` in an order `rows` that runs from tallest to shortest and
keeps rows of one height in storage order, and each entry has the `heightFt`, the
`tree` and the `id` of its row; the empty table gives the empty list, and the
store is left as it was. -/
theorem getTrees_sorted_projection (P : Platform) (db : Store) :
    ∃ (rows : List TreeRow) (entries : List TreeEntry),
      getTrees P db = ⟨db, [.storage .findAll, .send ⟨200, .entries entries⟩]⟩ ∧
      rows.Perm db.trees ∧
      (rows.Pairwise fun a b => a.heightFt ≥ b.heightFt) ∧
      (∀ h : ℚ, rows.filter (fun r => decide (r.heightFt = h)) =
        db.trees.filter (fun r => decide (r.heightFt = h))) ∧
      List.Forall₂ (fun (e : TreeEntry) (r : TreeRow) =>
        e.heightFt = r.heightFt ∧ e.tree = r.tree ∧ e.id = r.id) entries rows ∧
      (db.trees = [] → entries = []) := by
  refine ⟨orderByHeightDesc db.trees, (orderByHeightDesc db.trees).map TreeEntry.ofRow,
    rfl, orderByHeightDesc_perm db.trees, orderByHeightDesc_sorted db.trees,
    fun h => orderByHeightDesc_filter_height h db.trees, forall₂_ofRow _, ?_⟩
  intro hnil
  rw [hnil]
  rfl

/-- C1: when `Number(req.params.id) !== req.body.id`, `PUT /:id` leaves the store
exactly as it was and makes no storage call at all. -/
theorem putTree_mismatch_store (P : Platform) (db : Store) (id : String) (body : TreeBody)
    (hid : strictEq (.num (P.toNumber id)) body.id = false) :
    (putTree P db id body).store = db ∧
      ∀ call : StorageCall, Event.storage call ∉ (putTree P db id body).events := by
  unfold putTree
  cases P.toText body.id <;> simp [putCatch, hid]

theorem putTree_mismatch_store_witness :
    strictEq (.num (decimalPlatform.toNumber "2")) mismatchBody.id = false ∧
      (putTree decimalPlatform sampleStore "2" mismatchBody).store = sampleStore ∧
      ∀ call : StorageCall,
        Event.storage call ∉ (putTree decimalPlatform sampleStore "2" mismatchBody).events :=
  ⟨by decide, putTree_mismatch_store decimalPlatform sampleStore "2" mismatchBody (by decide)⟩

/-- C2, against the claim as it stands: at `PUT /trees/2` with the body id
`{"toString": 1}` the ids do not match, the template literal raises, and the
details handed to `next` are the message of that `TypeError`, not "2 does not
match ..". -/
theorem putTree_mismatch_object_counterexample :
    strictEq (.num (decimalPlatform.toNumber "2")) objectIdBody.id = false ∧
      (putTree decimalPlatform sampleStore "2" objectIdBody).events =
        [.next ⟨"error", "Could not update tree",
          "Cannot convert object to primitive value"⟩] := by
  decide

/-- C2, amended: when `Number(req.params.id) !== req.body.id`, `PUT /:id` writes no
response and hands exactly one object to `next`, with status "error" and message
"Could not update tree"; its details are "<path id> does not match <body id>",
the path id as it stands in the path and the body id as the template literal
renders it, when the body id converts to a string, and the message of the
`TypeError` when the conversion raises. -/
theorem putTree_mismatch_forwards (P : Platform) (db : Store) (id : String) (body : TreeBody)
    (hid : strictEq (.num (P.toNumber id)) body.id = false) :
    (putTree P db id body).responses = [] ∧
      (∀ text, P.toText body.id = .ok text →
        (putTree P db id body).events =
          [.next ⟨"error", "Could not update tree", id ++ " does not match " ++ text⟩]) ∧
      (∀ err, P.toText body.id = .error err →
        (putTree P db id body).events =
          [.next ⟨"error", "Could not update tree", errorDetails err⟩]) := by
  refine ⟨?_, ?_, ?_⟩
  · unfold putTree
    cases P.toText body.id <;> simp [putCatch, hid, Outcome.responses]
  · intro text htext
    simp [putTree, putCatch, hid, htext, newError, errorDetails]
  · intro err herr
    simp [putTree, putCatch, hid, herr]

theorem putTree_mismatch_forwards_witness :
    strictEq (.num (decimalPlatform.toNumber "2")) mismatchBody.id = false ∧
      decimalPlatform.toText mismatchBody.id = .ok "3" ∧
      (putTree decimalPlatform sampleStore "2" mismatchBody).responses = [] ∧
      (putTree decimalPlatform sampleStore "2" mismatchBody).events =
        [.next ⟨"error", "Could not update tree", "2 does not match 3"⟩] :=
  ⟨by decide, rfl,
    (putTree_mismatch_forwards decimalPlatform sampleStore "2" mismatchBody (by decide)).1,
    (putTree_mismatch_forwards decimalPlatform sampleStore "2" mismatchBody (by decide)).2.1
      "3" rfl⟩

/-- C3: when the body id equals `Number(req.params.id)` and no row of `Trees` has
the path id, the one response `PUT /:id` writes has status 400 and the body with
status "not-found", message "Could not update tree <id>" and details "Tree
not found", and the store is left as it was. -/
theorem putTree_absent_response (P : Platform) (db : Store) (id : String) (body : TreeBody)
    (hid : strictEq (.num (P.toNumber id)) body.id = true)
    (habsent : ∀ r ∈ db.trees, P.sqlInteger id ≠ some r.id) :
    (putTree P db id body).responses =
      [⟨400, .failure "not-found" ("Could not update tree " ++ id) "Tree not found"⟩] ∧
      (putTree P db id body).store = db := by
  simp [putTree, putCatch, hid, findOne_of_number P db id body.id hid,
    find_absent _ _ habsent, Outcome.responses]

theorem putTree_absent_response_witness :
    strictEq (.num (decimalPlatform.toNumber "17")) absentBody.id = true ∧
      (∀ r ∈ sampleStore.trees, decimalPlatform.sqlInteger "17" ≠ some r.id) ∧
      (putTree decimalPlatform sampleStore "17" absentBody).responses =
        [⟨400, .failure "not-found" "Could not update tree 17" "Tree not found"⟩] ∧
      (putTree decimalPlatform sampleStore "17" absentBody).store = sampleStore :=
  ⟨by decide, by decide,
    putTree_absent_response decimalPlatform sampleStore "17" absentBody (by decide) (by decide)⟩

/-- C4: when the body id equals `Number(req.params.id)` and `r` is the row of `Trees`
with the path id, `PUT /:id` puts a row `edited` in the place of `r` and leaves
every other row where and as it was; `edited` keeps the id of `r`, and each of
`tree`, `location`, `heightFt`, `groundCircumferenceFt` is the body value (`name`,
`location`, `height`, `size`) when that value is truthy and the value of `r` when
it is missing, empty or zero; `edited` is what a lookup by the path id finds
afterwards, and the response is 200 with status "success", message
"Successfully updated tree" and `edited` as data. -/
theorem putTree_updates (P : Platform) (db : Store) (id : String) (body : TreeBody)
    (r : TreeRow) (hid : strictEq (.num (P.toNumber id)) body.id = true)
    (hr : r ∈ db.trees) (hpath : P.sqlInteger id = some r.id)
    (huniq : ∀ x ∈ db.trees, x.id = r.id → x = r) :
    ∃ edited : TreeRow,
      putTree P db id body =
        ⟨{ db with trees := db.trees.map fun x => if x = r then edited else x },
         [.storage .findOne, .storage .save,
          .send ⟨200, .status "success" "Successfully updated tree" (some edited)⟩]⟩ ∧
      Tree.findOne P (putTree P db id body).store id = .ok (some edited) ∧
      edited.id = r.id ∧
      (∀ s, body.name = some s → s ≠ "" → edited.tree = s) ∧
      (body.name = none ∨ body.name = some "" → edited.tree = r.tree) ∧
      (∀ s, body.location = some s → s ≠ "" → edited.location = s) ∧
      (body.location = none ∨ body.location = some "" → edited.location = r.location) ∧
      (∀ q, body.height = some q → q ≠ 0 → edited.heightFt = q) ∧
      (body.height = none ∨ body.height = some 0 → edited.heightFt = r.heightFt) ∧
      (∀ q, body.size = some q → q ≠ 0 → edited.groundCircumferenceFt = q) ∧
      (body.size = none ∨ body.size = some 0 →
        edited.groundCircumferenceFt = r.groundCircumferenceFt) := by
  have hfind : db.trees.find? (fun x => decide (P.sqlInteger id = some x.id)) = some r :=
    find_unique _ r _ hr hpath huniq
  have hstore : (putTree P db id body).store =
      { db with trees := db.trees.map fun x => if x.id = r.id then set r body else x } := by
    simp [putTree, hid, findOne_of_integer P db id r.id hpath, hfind, save, set]
  refine ⟨set r body, ?_, ?_, rfl, ?_, ?_, ?_, ?_, ?_, ?_, ?_, ?_⟩
  · have hmap : (db.trees.map fun x => if x.id = r.id then set r body else x) =
        db.trees.map fun x => if x = r then set r body else x := by
      apply List.map_congr_left
      intro x hx
      by_cases hxr : x = r
      · simp [hxr]
      · have hxid : ¬ x.id = r.id := fun h => hxr (huniq x hx h)
        simp [hxr, hxid]
    rw [← hmap]
    simp [putTree, hid, findOne_of_integer P db id r.id hpath, hfind, save, set]
  · rw [findOne_of_integer P _ id r.id hpath, hstore]
    simp only []
    rw [find_replaced (P.sqlInteger id) r (set r body) db.trees hr hpath rfl]
  · intro s hs hne
    simp [set, orString, hs, hne]
  · rintro (h | h) <;> simp [set, orString, h]
  · intro s hs hne
    simp [set, orString, hs, hne]
  · rintro (h | h) <;> simp [set, orString, h]
  · intro q hq hne
    simp [set, orNumber, hq, hne]
  · rintro (h | h) <;> simp [set, orNumber, h]
  · intro q hq hne
    simp [set, orNumber, hq, hne]
  · rintro (h | h) <;> simp [set, orNumber, h]

theorem putTree_updates_witness :
    strictEq (.num (decimalPlatform.toNumber "3")) zeroHeightBody.id = true ∧
      president ∈ sampleStore.trees ∧
      decimalPlatform.sqlInteger "3" = some president.id ∧
      (∀ x ∈ sampleStore.trees, x.id = president.id → x = president) ∧
      (∃ edited : TreeRow,
        (putTree decimalPlatform sampleStore "3" zeroHeightBody).responses =
          [⟨200, .status "success" "Successfully updated tree" (some edited)⟩] ∧
        edited.id = 3 ∧ edited.tree = "President-edit" ∧ edited.heightFt = 241) ∧
      (∃ edited : TreeRow,
        (putTree decimalPlatform sampleStore "3" editBody).responses =
          [⟨200, .status "success" "Successfully updated tree" (some edited)⟩] ∧
        edited.id = 3 ∧ edited.tree = "President-edit" ∧ edited.heightFt = 240.91) := by
  refine ⟨by decide, by decide, by decide, by decide, ?_, ?_⟩
  · obtain ⟨edited, hout, -, hid, hname, -, -, -, -, hzero, -, -⟩ :=
      putTree_updates decimalPlatform sampleStore "3" zeroHeightBody president
        (by decide) (by decide) (by decide) (by decide)
    exact ⟨edited, by rw [hout]; rfl, hid, hname _ rfl (by decide), hzero (Or.inr rfl)⟩
  · obtain ⟨edited, hout, -, hid, hname, -, -, -, hheight, -, -, -⟩ :=
      putTree_updates decimalPlatform sampleStore "3" editBody president
        (by decide) (by decide) (by decide) (by decide)
    exact ⟨edited, by rw [hout]; rfl, hid, hname _ rfl (by decide),
      hheight _ rfl (by norm_num)⟩

/-- C6, against the claim as it stands: the path of `GET /trees/%00` matches no row
of `sampleStore`, the lookup raises, and the handler hands to `next` an object
with status "error", not "not-found". -/
theorem getTreeById_nul_counterexample :
    (∀ r ∈ sampleStore.trees, decimalPlatform.sqlInteger nulPath ≠ some r.id) ∧
      (getTreeById decimalPlatform sampleStore nulPath).responses = [] ∧
      (getTreeById decimalPlatform sampleStore nulPath).forwarded.map
          (fun e => (e.status, e.message)) =
        [("error", "Could not find tree " ++ nulPath)] := by
  decide

/-- C6, amended: `GET /:id` leaves the store as it was; when `r` is the row of
`Trees` with the path id it answers 200 with the whole row `r`; when the lookup
completes and no row has the path id it writes no response and hands to `next`
exactly the object with status "not-found", message "Could not find tree <id>"
and details "Tree not found"; and when the lookup raises it writes no response
and hands to `next` the object with status "error", the same message and the
messages of the exception as details. -/
theorem getTreeById_found_or_forwarded (P : Platform) (db : Store) (id : String) :
    (getTreeById P db id).store = db ∧
    (∀ r ∈ db.trees, P.sqlInteger id = some r.id → (∀ x ∈ db.trees, x.id = r.id → x = r) →
      (getTreeById P db id).events = [.storage .findOne, .send ⟨200, .tree r⟩]) ∧
    (P.queryError id = none → (∀ r ∈ db.trees, P.sqlInteger id ≠ some r.id) →
      (getTreeById P db id).events =
        [.storage .findOne,
         .next ⟨"not-found", "Could not find tree " ++ id, "Tree not found"⟩]) ∧
    (∀ err, P.queryError id = some err →
      (getTreeById P db id).events =
        [.storage .findOne,
         .next ⟨"error", "Could not find tree " ++ id, errorDetails err⟩]) := by
  refine ⟨?_, ?_, ?_, ?_⟩
  · unfold getTreeById Tree.findOne
    cases P.queryError id
    · cases db.trees.find? (fun r => decide (P.sqlInteger id = some r.id)) <;> rfl
    · rfl
  · intro r hr hpath huniq
    simp [getTreeById, findOne_of_integer P db id r.id hpath,
      find_unique _ r _ hr hpath huniq]
  · intro hquery habsent
    simp [getTreeById, findOne_completes P db id hquery, find_absent _ _ habsent]
  · intro err herr
    simp [getTreeById, Tree.findOne, herr]

theorem getTreeById_found_or_forwarded_witness :
    (getTreeById decimalPlatform sampleStore "3").events =
        [.storage .findOne, .send ⟨200, .tree president⟩] ∧
      (getTreeById decimalPlatform sampleStore "17").events =
        [.storage .findOne,
         .next ⟨"not-found", "Could not find tree 17", "Tree not found"⟩] ∧
      (getTreeById decimalPlatform sampleStore nulPath).events =
        [.storage .findOne,
         .next ⟨"error", "Could not find tree " ++ nulPath,
           "SQLITE_ERROR: unrecognized token: \"\x27\""⟩] :=
  ⟨(getTreeById_found_or_forwarded decimalPlatform sampleStore "3").2.1 president
      (by decide) (by decide) (by decide),
    (getTreeById_found_or_forwarded decimalPlatform sampleStore "17").2.2.1 (by decide)
      (by decide),
    (getTreeById_found_or_forwarded decimalPlatform sampleStore nulPath).2.2.2 _ rfl⟩

/-- C7: when the storage layer accepts the values of a `POST /` body, the response is
200 with status "success", message "Successfully created new tree" and the new
row as data; the id of the new row is the id of no row stored before; the new
row carries `name`, `location`, `height` and `size` of the body as `tree`,
`location`, `heightFt` and `groundCircumferenceFt`; and a `GET /:id` on the store
left behind, with a path that stands for the new id, answers with that row. -/
theorem postTree_then_get (P : Platform) (db db' : Store) (body : TreeBody) (row : TreeRow)
    (hcreate : Tree.create db
      { tree := body.name, location := body.location, heightFt := body.height,
        groundCircumferenceFt := body.size } = .ok (db', row)) :
    postTree db body =
        ⟨db', [.storage .create,
               .send ⟨200, .status "success" "Successfully created new tree" (some row)⟩]⟩ ∧
      (∀ r ∈ db.trees, r.id ≠ row.id) ∧
      db'.trees = db.trees ++ [row] ∧
      db'.insectTrees = db.insectTrees ∧
      body.name = some row.tree ∧
      body.location = some row.location ∧
      body.height = some row.heightFt ∧
      body.size = some row.groundCircumferenceFt ∧
      ∀ path : String, P.sqlInteger path = some row.id →
        getTreeById P (postTree db body).store path =
          ⟨db', [.storage .findOne, .send ⟨200, .tree row⟩]⟩ := by
  have hpost : postTree db body =
      ⟨db', [.storage .create,
             .send ⟨200, .status "success" "Successfully created new tree" (some row)⟩]⟩ := by
    simp [postTree, hcreate]
  cases hn : body.name <;> cases hl : body.location <;> cases hh : body.height <;>
    cases hs : body.size <;> simp [Tree.create, hn, hl, hh, hs] at hcreate
  obtain ⟨hdb, hrow⟩ := hcreate
  have hfresh : ∀ r ∈ db.trees, r.id ≠ row.id := by
    intro r hr
    rw [← hrow]
    exact nextId_fresh db r hr
  have htrees : db'.trees = db.trees ++ [row] := by
    rw [← hdb, ← hrow]
  refine ⟨hpost, hfresh, htrees, ?_, ?_, ?_, ?_, ?_, ?_⟩
  · rw [← hdb]
  · rw [← hrow]
  · rw [← hrow]
  · rw [← hrow]
  · rw [← hrow]
  · intro path hpath
    rw [hpost]
    simp [getTreeById, findOne_of_integer P db' path row.id hpath, htrees,
      find_appended _ row db.trees hpath hfresh]

theorem postTree_then_get_witness :
    Tree.create sampleStore
        { tree := newTreeBody.name, location := newTreeBody.location,
          heightFt := newTreeBody.height, groundCircumferenceFt := newTreeBody.size } =
        .ok ({ sampleStore with
                trees := sampleStore.trees ++ [⟨6, "Boole", "Converse Basin", 269, 113⟩]
                treeSequence := 6 },
             ⟨6, "Boole", "Converse Basin", 269, 113⟩) ∧
      (postTree sampleStore newTreeBody).responses =
        [⟨200, .status "success" "Successfully created new tree"
          (some ⟨6, "Boole", "Converse Basin", 269, 113⟩)⟩] ∧
      (getTreeById decimalPlatform (postTree sampleStore newTreeBody).store "6").responses =
        [⟨200, .tree ⟨6, "Boole", "Converse Basin", 269, 113⟩⟩] := by
  have h := postTree_then_get decimalPlatform sampleStore _ newTreeBody _
    (show Tree.create sampleStore
        { tree := newTreeBody.name, location := newTreeBody.location,
          heightFt := newTreeBody.height, groundCircumferenceFt := newTreeBody.size } =
        .ok ({ sampleStore with
                trees := sampleStore.trees ++ [⟨6, "Boole", "Converse Basin", 269, 113⟩]
                treeSequence := 6 },
             ⟨6, "Boole", "Converse Basin", 269, 113⟩) from rfl)
  refine ⟨rfl, ?_, ?_⟩
  · rw [h.1]
    rfl
  · rw [h.2.2.2.2.2.2.2.2 "6" (by decide)]
    rfl

/-- C8: when a row `r` of `Trees` has the path id, `DELETE /:id` answers 200 with
status "success" and message "Successfully removed tree <id>"; the rows of
`Trees` with another id stay where and as they were and `r` is gone; no row of
`InsectTrees` has `treeId` equal to the id of `r` any more, the other join rows
stay; and a `GET /:id` with the same path then hands a "not-found" error to
`next`. -/
theorem deleteTree_removes (P : Platform) (db : Store) (id : String) (r : TreeRow)
    (hr : r ∈ db.trees) (hpath : P.sqlInteger id = some r.id) :
    (deleteTree P db id).events =
        [.storage .findOne, .storage .destroy,
         .send ⟨200, .status "success" ("Successfully removed tree " ++ id) none⟩] ∧
      (deleteTree P db id).store.trees = db.trees.filter (fun x => decide (x.id ≠ r.id)) ∧
      (deleteTree P db id).store.insectTrees =
        db.insectTrees.filter (fun j => decide (j.treeId ≠ r.id)) ∧
      (∀ j ∈ (deleteTree P db id).store.insectTrees, j.treeId ≠ r.id) ∧
      getTreeById P (deleteTree P db id).store id =
        ⟨(deleteTree P db id).store,
         [.storage .findOne,
          .next ⟨"not-found", "Could not find tree " ++ id, "Tree not found"⟩]⟩ := by
  obtain ⟨x, hfind, hxid⟩ := find_some_id (P.sqlInteger id) r db.trees hr hpath
  have hout : deleteTree P db id =
      ⟨{ db with
         trees := db.trees.filter (fun y => decide (y.id ≠ r.id))
         insectTrees := db.insectTrees.filter (fun j => decide (j.treeId ≠ r.id)) },
       [.storage .findOne, .storage .destroy,
        .send ⟨200, .status "success" ("Successfully removed tree " ++ id) none⟩]⟩ := by
    simp [deleteTree, findOne_of_integer P db id r.id hpath, hfind, destroy, hxid]
  rw [hout]
  refine ⟨rfl, rfl, rfl, ?_, ?_⟩
  · intro j hj
    simpa using (List.mem_filter.mp hj).2
  · have hnone : (db.trees.filter (fun y => decide (y.id ≠ r.id))).find?
        (fun y => decide (P.sqlInteger id = some y.id)) = none := by
      apply find_absent
      intro y hy h
      have hne : y.id ≠ r.id := by simpa using (List.mem_filter.mp hy).2
      rw [hpath] at h
      exact hne (Option.some.inj h).symm
    simp only [getTreeById, findOne_of_integer P _ id r.id hpath, hnone]

theorem deleteTree_removes_witness :
    stagg ∈ sampleStore.trees ∧ decimalPlatform.sqlInteger "5" = some stagg.id ∧
      (deleteTree decimalPlatform sampleStore "5").responses =
        [⟨200, .status "success" "Successfully removed tree 5" none⟩] ∧
      (deleteTree decimalPlatform sampleStore "5").store.insectTrees =
        [⟨1, 1, 1⟩, ⟨2, 1, 2⟩, ⟨3, 1, 4⟩] ∧
      (getTreeById decimalPlatform (deleteTree decimalPlatform sampleStore "5").store
          "5").forwarded =
        [⟨"not-found", "Could not find tree 5", "Tree not found"⟩] := by
  have h := deleteTree_removes decimalPlatform sampleStore "5" stagg (by decide) (by decide)
  refine ⟨by decide, by decide, ?_, ?_, ?_⟩
  · rw [Outcome.responses, h.1]
    rfl
  · rw [h.2.2.1]
    decide
  · rw [h.2.2.2.2]
    rfl

/-- C9, against the claim as it stands: the value `_` is contained in no name of
`sampleStore`, and `GET /search/_` answers with all five trees. -/
theorem searchTrees_underscore_counterexample :
    (sampleStore.trees.filter fun r => containsIgnoreCase "_" r.tree) = [] ∧
      (searchTrees decimalPlatform sampleStore "_").responses =
        [⟨200, .entries [⟨275, "General Sherman", 1⟩, ⟨268, "General Grant", 2⟩,
          ⟨256, "Lincoln", 4⟩, ⟨243, "Stagg", 5⟩, ⟨241, "President", 3⟩]⟩] := by
  decide

/-- C9, amended: for a value with neither `%` nor `_` in it whose query completes,
`GET /search/:value` answers 200 with one entry for each row of `Trees` whose name
contains the value as a substring, up to the case of ASCII letters, and with no
other entry: the entries stand for those rows in an order `rows` that runs from
tallest to shortest, each entry has the `heightFt`, the `tree` and the `id` of its
row, and the store is left as it was. -/
theorem searchTrees_contains (P : Platform) (db : Store) (value : String)
    (hp : '%' ∉ value.toList) (hu : '_' ∉ value.toList)
    (hquery : P.queryError ("%" ++ value ++ "%") = none) :
    ∃ (rows : List TreeRow) (entries : List TreeEntry),
      searchTrees P db value = ⟨db, [.storage .findAll, .send ⟨200, .entries entries⟩]⟩ ∧
      rows.Perm (db.trees.filter fun r => containsIgnoreCase value r.tree) ∧
      (rows.Pairwise fun a b => a.heightFt ≥ b.heightFt) ∧
      List.Forall₂ (fun (e : TreeEntry) (r : TreeRow) =>
        e.heightFt = r.heightFt ∧ e.tree = r.tree ∧ e.id = r.id) entries rows := by
  have hfilter : (db.trees.filter fun r => like ("%" ++ value ++ "%").toList r.tree.toList) =
      db.trees.filter fun r => containsIgnoreCase value r.tree := by
    congr 1
    funext r
    exact like_contains value r.tree hp hu
  refine ⟨orderByHeightDesc (db.trees.filter fun r => containsIgnoreCase value r.tree),
    (orderByHeightDesc
      (db.trees.filter fun r => containsIgnoreCase value r.tree)).map TreeEntry.ofRow,
    ?_, orderByHeightDesc_perm _, orderByHeightDesc_sorted _, forall₂_ofRow _⟩
  simp only [searchTrees, Tree.findAll, hquery, hfilter]

theorem searchTrees_contains_witness :
    '%' ∉ "AN".toList ∧ '_' ∉ "AN".toList ∧
      decimalPlatform.queryError ("%" ++ "AN" ++ "%") = none ∧
      ∃ (rows : List TreeRow) (entries : List TreeEntry),
        searchTrees decimalPlatform sampleStore "AN" =
          ⟨sampleStore, [.storage .findAll, .send ⟨200, .entries entries⟩]⟩ ∧
        rows.Perm (sampleStore.trees.filter fun r => containsIgnoreCase "AN" r.tree) ∧
        (rows.Pairwise fun a b => a.heightFt ≥ b.heightFt) ∧
        List.Forall₂ (fun (e : TreeEntry) (r : TreeRow) =>
          e.heightFt = r.heightFt ∧ e.tree = r.tree ∧ e.id = r.id) entries rows :=
  ⟨by decide, by decide, by decide,
    searchTrees_contains decimalPlatform sampleStore "AN" (by decide) (by decide) (by decide)⟩

/-- C10, at `PUT /trees/17` with the body of the test: no row has id 17, the handler
writes the 400 response, goes on to `editTree.set` on `null`, and its `catch`
block hands an error to `next`: two terminal actions. -/
theorem putTree_absent_two_terminal_actions :
    (putTree decimalPlatform sampleStore "17" absentBody).events =
        [.storage .findOne,
         .send ⟨400, .failure "not-found" "Could not update tree 17" "Tree not found"⟩,
         .next ⟨"error", "Could not update tree",
           "Cannot read properties of null (reading \x27set\x27)"⟩] ∧
      (putTree decimalPlatform sampleStore "17" absentBody).terminalCount = 2 := by
  decide

end TreeRoutes
